import Mathlib

/-!
Verification model of the `chat_voice` repository.

The repository implements a voice-chat widget with:
* a fixed-window rate limiter, duplicated in `src/app/api/token/route.ts`
  (`checkTokenRateLimit`, ceiling 20) and in the `/api/chat` route
  (`checkRateLimit`, ceiling 10), both over a 60 s window;
* the `/api/chat` POST handler, a three stage pipeline
  (transcribe, generate, text-to-speech);
* the `/api/token` POST handler (identifier validation and credential issue);
* the client-side `useChat` hook (`sendAudioToApi`, `addMessage`).

Every definition below is a direct translation of the corresponding
TypeScript.  Times are naturals (milliseconds, `Date.now()` values),
JavaScript `Map<string, _>` is an association list with unique keys,
and the three AI model calls (external collaborators) are parameters of
the handler.
-/

/-- Substring test on character lists: does `pat` occur inside `s`?
Models JavaScript `s.includes(pat)`. -/
def containsSubList (s pat : List Char) : Bool :=
  match s with
  | [] => pat.isEmpty
  | _ :: rest => pat.isPrefixOf s || containsSubList rest pat

/-- Models JavaScript `s.includes(pat)`. -/
def containsSub (s pat : String) : Bool :=
  containsSubList s.data pat.data

/-- Models JavaScript `s.startsWith(pre)`. -/
def strStartsWith (s pre : String) : Bool :=
  pre.data.isPrefixOf s.data

/-- Models JavaScript `s.trim()`: strip leading and trailing whitespace. -/
def jsTrim (s : String) : String :=
  ⟨((s.data.dropWhile Char.isWhitespace).reverse.dropWhile Char.isWhitespace).reverse⟩

/-- Models JavaScript falsiness of an optional string field:
`undefined`/missing or the empty string. -/
def strFalsy : Option String → Bool
  | none => true
  | some s => s = ""

/-- `Math.ceil(x / 1000)` for a non-negative millisecond amount,
as used for the `retryAfter` second counts. -/
def ceilSec (x : Int) : Nat :=
  (x.toNat + 999) / 1000

-- ==================== Rate limiter ====================

/-- One entry of the `requestCounts` / `tokenRequestCounts` maps:
`{ count: number; resetTime: number }`. -/
structure RateLimitRecord where
  count : Nat
  resetTime : Nat
deriving DecidableEq, Repr

/-- The rate-limit counter map (`Map<string, RateLimitRecord>`),
modelled as an association list with (in reachable states) unique keys. -/
abbrev RLMap := List (String × RateLimitRecord)

/-- `Map.get`. -/
def rlGet : RLMap → String → Option RateLimitRecord
  | [], _ => none
  | (k, r) :: rest, key => if k = key then some r else rlGet rest key

/-- `Map.set`: replace the entry for the key, or append a new one. -/
def rlSet : RLMap → String → RateLimitRecord → RLMap
  | [], key, r => [(key, r)]
  | (k0, r0) :: rest, key, r =>
    if k0 = key then (key, r) :: rest else (k0, r0) :: rlSet rest key r

/-- `Map.delete`. -/
def rlDelete : RLMap → String → RLMap
  | [], _ => []
  | (k0, r0) :: rest, key =>
    if k0 = key then rlDelete rest key else (k0, r0) :: rlDelete rest key

/-- Result record of the limiter: `{ allowed, remaining, resetIn }`. -/
structure RateLimitResult where
  allowed : Bool
  remaining : Int
  resetIn : Int
deriving DecidableEq, Repr

/-- `REQUEST_LIMIT` of the chat route. -/
def REQUEST_LIMIT : Nat := 10

/-- `TOKEN_REQUEST_LIMIT` of the token route. -/
def TOKEN_REQUEST_LIMIT : Nat := 20

/-- `TIME_WINDOW` (60 * 1000 ms) of both routes. -/
def TIME_WINDOW : Nat := 60 * 1000

/-- The fixed-window limiter shared (textually duplicated) by both routes:
`checkRateLimit` in the chat route and `checkTokenRateLimit` in the token
route, parameterised by the ceiling and the window.  `now` is `Date.now()`;
the function returns the result together with the updated map. -/
def checkRateLimit (limit window now : Nat) (m : RLMap) (key : String) :
    RateLimitResult × RLMap :=
  let m1 := match rlGet m key with
    | some record => if record.resetTime < now then rlDelete m key else m
    | none => m
  match rlGet m1 key with
  | none =>
    ({ allowed := true, remaining := (limit : Int) - 1, resetIn := (window : Int) },
     rlSet m1 key { count := 1, resetTime := now + window })
  | some current =>
    if limit ≤ current.count then
      ({ allowed := false, remaining := 0,
         resetIn := max 0 ((current.resetTime : Int) - (now : Int)) }, m1)
    else
      ({ allowed := true, remaining := (limit : Int) - ((current.count : Int) + 1),
         resetIn := (current.resetTime : Int) - (now : Int) },
       rlSet m1 key { count := current.count + 1, resetTime := current.resetTime })

/-- `checkTokenRateLimit` of `src/app/api/token/route.ts`. -/
def checkTokenRateLimit (now : Nat) (m : RLMap) (key : String) :
    RateLimitResult × RLMap :=
  checkRateLimit TOKEN_REQUEST_LIMIT TIME_WINDOW now m key

/-- `checkRateLimit` of the chat route (ceiling 10). -/
def checkChatRateLimit (now : Nat) (m : RLMap) (key : String) :
    RateLimitResult × RLMap :=
  checkRateLimit REQUEST_LIMIT TIME_WINDOW now m key

/-- The periodic `setInterval` sweep of both routes: drop every record whose
reset time is strictly in the past. -/
def sweepExpired (now : Nat) (m : RLMap) : RLMap :=
  m.filter (fun p => ! decide (p.2.resetTime < now))

/-- Run a sequence of requests (at the given `Date.now()` values) for one
key through the limiter, collecting the per-request results. -/
def runRequests (limit window : Nat) (ts : List Nat) (m : RLMap) (key : String) :
    List RateLimitResult × RLMap :=
  match ts with
  | [] => ([], m)
  | t :: rest =>
    let step := checkRateLimit limit window t m key
    let next := runRequests limit window rest step.2 key
    (step.1 :: next.1, next.2)

-- ==================== Chat route (/api/chat POST) ====================

/-- Outcome of one external AI flow call (`transcribeUserSpeech`,
`generateAIResponse`, `convertTextToSpeech`): a value, or a thrown `Error`
carrying its message. -/
inductive StageResult (α : Type) where
  | ok (val : α)
  | err (msg : String)
deriving DecidableEq, Repr

/-- The three external AI flows invoked by the chat route, as parameters of
the handler (they are external collaborators; the route only sees their
result or their error message). -/
structure ChatStages where
  transcribeUserSpeech : String → StageResult String
  generateAIResponse : String → StageResult String
  convertTextToSpeech : String → StageResult String

/-- The quota pattern test applied to a stage error message:
`error.message.includes('quota') || error.message.includes('rate limit') ||
error.message.includes('429')`. -/
def isQuotaMsg (msg : String) : Bool :=
  containsSub msg "quota" || containsSub msg "rate limit" || containsSub msg "429"

/-- The JSON responses the chat route can produce.  `rateLimited` is the 429
of the local limiter (`rateLimitExceeded: true`), `quotaExceeded` the 429
with `quotaExceeded: true`, `badRequest` a 400, `serverError` the outer
catch with its mapped status, `ok` a 200 body
`{transcription, aiResponse: {text, audioDataUri}}`. -/
inductive ChatResponse where
  | rateLimited (error : String) (retryAfter : Nat)
  | badRequest (error : String)
  | quotaExceeded (error : String)
  | serverError (error : String) (status : Nat)
  | ok (transcription : String) (text : String) (audioDataUri : String)
deriving DecidableEq, Repr

/-- Whether a chat response is a 400 validation rejection. -/
def ChatResponse.isBadRequest : ChatResponse → Bool
  | .badRequest _ => true
  | _ => false

/-- The outer `catch` of the chat route: map a re-thrown error message to a
response (`timeout` to 504, `network` to 503, `quota`/`rate limit` to a
plain 429, anything else to a 500 carrying the message). -/
def mapCaughtError (msg : String) : ChatResponse :=
  if containsSub msg "timeout" then
    .serverError "Request timeout. Please try again." 504
  else if containsSub msg "network" then
    .serverError "Service temporarily unavailable." 503
  else if containsSub msg "quota" || containsSub msg "rate limit" then
    .serverError "Too many requests. Please wait a moment." 429
  else
    .serverError msg 500

/-- The POST handler of the chat route.  `audioDataUri` is the body field
(`none` models a missing field, the empty string is also falsy).  Returns
the response and the rate-limit map after the request. -/
def chatPOST (stages : ChatStages) (now : Nat) (m : RLMap) (key : String)
    (audioDataUri : Option String) : ChatResponse × RLMap :=
  let step := checkChatRateLimit now m key
  let rl := step.1
  let m1 := step.2
  if rl.allowed = false then
    (.rateLimited ("Rate limit exceeded. Please wait " ++ toString (ceilSec rl.resetIn)
        ++ " seconds before trying again.") (ceilSec rl.resetIn), m1)
  else
    match audioDataUri with
    | none => (.badRequest "Missing audioDataUri", m1)
    | some uri =>
      if uri = "" then (.badRequest "Missing audioDataUri", m1)
      else if ! strStartsWith uri "data:audio/" then
        (.badRequest "Invalid audio data format", m1)
      else
        match stages.transcribeUserSpeech uri with
        | .err msg =>
          if isQuotaMsg msg then
            (.quotaExceeded "AI service quota exceeded. Please try again in a few moments.",
             m1)
          else (mapCaughtError msg, m1)
        | .ok transcription =>
          if jsTrim transcription = "" then
            (.ok "" "Sorry, I couldn\x27t understand that. Please try again." "", m1)
          else
            match stages.generateAIResponse transcription with
            | .err msg =>
              if isQuotaMsg msg then
                (.quotaExceeded "AI service is busy. Please try again shortly.", m1)
              else (mapCaughtError msg, m1)
            | .ok aiTextResponse =>
              if jsTrim aiTextResponse = "" then
                (.ok transcription "I\x27m not sure how to respond to that." "", m1)
              else
                match stages.convertTextToSpeech aiTextResponse with
                | .err _ => (.ok transcription aiTextResponse "", m1)
                | .ok audio => (.ok transcription aiTextResponse audio, m1)

-- ==================== Token route (/api/token POST) ====================

/-- The LiveKit environment configuration (`LIVEKIT_API_KEY`,
`LIVEKIT_API_SECRET`, `NEXT_PUBLIC_LIVEKIT_URL`); `none` models an unset
variable. -/
structure LiveKitEnv where
  apiKey : Option String
  apiSecret : Option String
  wsUrl : Option String
deriving DecidableEq, Repr

/-- One character of the class `[a-zA-Z0-9_-]`. -/
def isNameChar (c : Char) : Bool :=
  (decide ('a' ≤ c) && decide (c ≤ 'z')) ||
  (decide ('A' ≤ c) && decide (c ≤ 'Z')) ||
  (decide ('0' ≤ c) && decide (c ≤ '9')) ||
  c == '_' || c == '-'

/-- The test `/^[a-zA-Z0-9_-]+$/.test(s)`: non-empty and every character in
the class. -/
def isValidName (s : String) : Bool :=
  ! s.data.isEmpty && s.data.all isNameChar

/-- The JSON responses of the token route.  Actual JWT signing
(`AccessToken.toJwt`, grants, 10-minute ttl, metadata) is performed by the
external `livekit-server-sdk`; `issued` records reaching that success path
with the returned `url`, `expiresIn`, `roomName` and `participantName`
fields. -/
inductive TokenResponse where
  | rateLimited (error : String) (retryAfter : Nat)
  | missingFields (error : String)
  | invalidFormat (error : String)
  | configError (error : String)
  | issued (url : String) (expiresIn : Nat) (roomName participantName : String)
deriving DecidableEq, Repr

/-- Whether the route reached the 200 issuance path. -/
def TokenResponse.isIssued : TokenResponse → Bool
  | .issued _ _ _ _ => true
  | _ => false

/-- Whether the response is one of the two 400 validation rejections. -/
def TokenResponse.isValidationError : TokenResponse → Bool
  | .missingFields _ => true
  | .invalidFormat _ => true
  | _ => false

/-- Whether the environment passes both configuration checks of the route:
all three variables truthy and the URL starting with `ws://` or `wss://`. -/
def configOK (env : LiveKitEnv) : Bool :=
  match env.apiKey, env.apiSecret, env.wsUrl with
  | some ak, some asec, some ws =>
    ! (decide (ak = "") || decide (asec = "") || decide (ws = "")) &&
    (strStartsWith ws "ws://" || strStartsWith ws "wss://")
  | _, _, _ => false

/-- The POST handler of the token route.  `roomName`/`participantName` are
the body fields (`none` missing, `""` falsy). -/
def tokenPOST (env : LiveKitEnv) (now : Nat) (m : RLMap) (key : String)
    (roomName participantName : Option String) : TokenResponse × RLMap :=
  let step := checkTokenRateLimit now m key
  let rl := step.1
  let m1 := step.2
  if rl.allowed = false then
    (.rateLimited ("Too many token requests. Please wait " ++ toString (ceilSec rl.resetIn)
        ++ " seconds.") (ceilSec rl.resetIn), m1)
  else
    match roomName, participantName with
    | some r, some p =>
      if r = "" ∨ p = "" then
        (.missingFields "Missing roomName or participantName", m1)
      else if ! isValidName r || ! isValidName p then
        (.invalidFormat
          "Invalid roomName or participantName format. Use only letters, numbers, hyphens, and underscores.",
         m1)
      else
        match env.apiKey, env.apiSecret, env.wsUrl with
        | some ak, some asec, some wsUrl =>
          if ak = "" ∨ asec = "" ∨ wsUrl = "" then
            (.configError "Server configuration error: LiveKit credentials not set.", m1)
          else if ! strStartsWith wsUrl "ws://" && ! strStartsWith wsUrl "wss://" then
            (.configError "Invalid LiveKit URL configuration.", m1)
          else
            (.issued wsUrl 600 r p, m1)
        | _, _, _ =>
          (.configError "Server configuration error: LiveKit credentials not set.", m1)
    | _, _ => (.missingFields "Missing roomName or participantName", m1)

-- ==================== Client (useChat hook) ====================

/-- `MAX_RETRIES` of the client hook. -/
def MAX_RETRIES : Nat := 2

/-- `RETRY_DELAY` (3000 ms) of the client hook. -/
def RETRY_DELAY : Nat := 3000

/-- The message role: `'user' | 'assistant'`. -/
inductive Role where
  | user
  | assistant
deriving DecidableEq, Repr

/-- A transcript message as the ordering claims see it.  The source type
also carries an `id` (a fresh UUID) and a `timestamp` (`Date.now()`),
produced by external generators and irrelevant to content and order. -/
structure Message where
  text : String
  role : Role
deriving DecidableEq, Repr

/-- `addMessage`: append one message to the transcript state. -/
def addMessage (messages : List Message) (msg : Message) : List Message :=
  messages ++ [msg]

/-- The client test that turns a failed chat response into a
`RateLimitError`: `errorMessage.includes('Quota exceeded') ||
errorMessage.includes('rate limit')`. -/
def clientClassifyRateLimit (errorMessage : String) : Bool :=
  containsSub errorMessage "Quota exceeded" || containsSub errorMessage "rate limit"

/-- What `sendAudioToApi`'s catch block does with a failed response:
schedule a retry of the same audio after `RETRY_DELAY * (retryCount + 1)`
ms, give up with the final too-many-requests transcript message, or append
a generic error transcript message. -/
inductive ClientErrorAction where
  | scheduleRetry (waitMs : Nat)
  | finalTooManyRequests
  | genericErrorDisplay (errorMessage : String)
deriving DecidableEq, Repr

/-- The retry decision of `sendAudioToApi`'s catch block, given the error
message extracted from the response body and the current retry count. -/
def clientHandleChatError (errorMessage : String) (retryCount : Nat) : ClientErrorAction :=
  if clientClassifyRateLimit errorMessage && decide (retryCount < MAX_RETRIES) then
    .scheduleRetry (RETRY_DELAY * (retryCount + 1))
  else if clientClassifyRateLimit errorMessage then
    .finalTooManyRequests
  else
    .genericErrorDisplay errorMessage

/-- The success path of `sendAudioToApi` on a 200 body: append the user
transcription when truthy, then append the assistant text and start audio
playback when both the text and the audio data URI are truthy.  Returns
the new transcript and whether playback was started. -/
def handleChatData (messages : List Message) (transcription text audioDataUri : String) :
    List Message × Bool :=
  let l1 := if transcription = "" then messages
    else addMessage messages { text := transcription, role := .user }
  if text ≠ "" ∧ audioDataUri ≠ "" then
    (addMessage l1 { text := text, role := .assistant }, true)
  else (l1, false)

-- ==================== Map lemmas ====================

theorem rlGet_rlSet_self (m : RLMap) (key : String) (r : RateLimitRecord) :
    rlGet (rlSet m key r) key = some r := by
  induction m with
  | nil => simp [rlGet, rlSet]
  | cons p rest ih =>
    obtain ⟨k0, r0⟩ := p
    by_cases h : k0 = key
    · simp [rlGet, rlSet, h]
    · simp [rlGet, rlSet, h, ih]

theorem rlGet_rlDelete_self (m : RLMap) (key : String) :
    rlGet (rlDelete m key) key = none := by
  induction m with
  | nil => simp [rlGet, rlDelete]
  | cons p rest ih =>
    obtain ⟨k0, r0⟩ := p
    by_cases h : k0 = key
    · simp [rlDelete, h, ih]
    · simp [rlGet, rlDelete, h, ih]

-- ==================== Limiter step lemmas ====================

theorem checkRateLimit_fresh (limit window now : Nat) (m : RLMap) (key : String)
    (h : rlGet m key = none) :
    checkRateLimit limit window now m key =
      ({ allowed := true, remaining := (limit : Int) - 1, resetIn := (window : Int) },
       rlSet m key { count := 1, resetTime := now + window }) := by
  simp [checkRateLimit, h]

theorem checkRateLimit_expired (limit window now : Nat) (m : RLMap) (key : String)
    (r : RateLimitRecord) (h : rlGet m key = some r) (hexp : r.resetTime < now) :
    checkRateLimit limit window now m key =
      ({ allowed := true, remaining := (limit : Int) - 1, resetIn := (window : Int) },
       rlSet (rlDelete m key) key { count := 1, resetTime := now + window }) := by
  simp [checkRateLimit, h, hexp, rlGet_rlDelete_self]

theorem checkRateLimit_live (limit window now : Nat) (m : RLMap) (key : String)
    (r : RateLimitRecord) (h : rlGet m key = some r) (hlive : ¬ r.resetTime < now) :
    checkRateLimit limit window now m key =
      if limit ≤ r.count then
        ({ allowed := false, remaining := 0,
           resetIn := max 0 ((r.resetTime : Int) - (now : Int)) }, m)
      else
        ({ allowed := true, remaining := (limit : Int) - ((r.count : Int) + 1),
           resetIn := (r.resetTime : Int) - (now : Int) },
         rlSet m key { count := r.count + 1, resetTime := r.resetTime }) := by
  simp [checkRateLimit, h, hlive]

theorem checkRateLimit_counted (l w t0 now : Nat) (key : String) (c : Nat) (m : RLMap)
    (hl : 0 < l) (hm : rlGet m key = some ⟨min c l, t0 + w⟩)
    (h1 : t0 ≤ now) (h2 : now < t0 + w) :
    (checkRateLimit l w now m key).1.allowed = decide (c < l) ∧
    (l ≤ c →
      (checkRateLimit l w now m key).1.remaining = 0 ∧
      0 < (checkRateLimit l w now m key).1.resetIn ∧
      (checkRateLimit l w now m key).1.resetIn ≤ (w : Int)) ∧
    rlGet (checkRateLimit l w now m key).2 key = some ⟨min (c + 1) l, t0 + w⟩ := by
  have hlive : ¬ (RateLimitRecord.mk (min c l) (t0 + w)).resetTime < now := by
    simp only [RateLimitRecord.mk.injEq]
    omega
  rw [checkRateLimit_live l w now m key _ hm hlive]
  by_cases hcl : c < l
  · have hmin : min c l = c := by omega
    have hnotle : ¬ l ≤ (RateLimitRecord.mk (min c l) (t0 + w)).count := by
      simp only []
      omega
    rw [if_neg hnotle]
    refine ⟨by simp [hcl], by omega, ?_⟩
    have hmin1 : min (c + 1) l = c + 1 := by omega
    rw [hmin, rlGet_rlSet_self, hmin1]
  · have hmin : min c l = l := by omega
    have hle : l ≤ (RateLimitRecord.mk (min c l) (t0 + w)).count := by
      simp only []
      omega
    rw [if_pos hle]
    have hpos : (0 : Int) < ((t0 + w : Nat) : Int) - (now : Int) := by
      push_cast
      omega
    refine ⟨by simp [hcl], ?_, ?_⟩
    · intro _
      refine ⟨rfl, ?_, ?_⟩
      · exact lt_max_of_lt_right hpos
      · have : max 0 (((t0 + w : Nat) : Int) - (now : Int)) =
            ((t0 + w : Nat) : Int) - (now : Int) := max_eq_right (le_of_lt hpos)
        rw [this]
        push_cast
        omega
    · rw [hm, hmin]
      have hmin1 : min (c + 1) l = l := by omega
      rw [hmin1]

theorem runRequests_window (l w t0 : Nat) (key : String) (hl : 0 < l) :
    ∀ (rest : List Nat) (c : Nat) (m : RLMap),
    rlGet m key = some ⟨min c l, t0 + w⟩ →
    (∀ t ∈ rest, t0 ≤ t ∧ t < t0 + w) →
    ((runRequests l w rest m key).1.length = rest.length) ∧
    (∀ j, j < rest.length →
      ((runRequests l w rest m key).1.getD j ⟨false, 0, 0⟩).allowed = decide (c + j < l) ∧
      (l ≤ c + j →
        ((runRequests l w rest m key).1.getD j ⟨false, 0, 0⟩).remaining = 0 ∧
        0 < ((runRequests l w rest m key).1.getD j ⟨false, 0, 0⟩).resetIn ∧
        ((runRequests l w rest m key).1.getD j ⟨false, 0, 0⟩).resetIn ≤ (w : Int))) ∧
    (∀ ps, ps <+: rest → ∀ rec, rlGet ((runRequests l w ps m key).2) key = some rec →
      rec.count ≤ l) := by
  intro rest
  induction rest with
  | nil =>
    intro c m hm _
    refine ⟨rfl, ?_, ?_⟩
    · intro j hj
      simp at hj
    · intro ps hps rec hrec
      have hnil : ps = [] := List.prefix_nil.mp hps
      subst hnil
      simp only [runRequests] at hrec
      rw [hm] at hrec
      cases hrec
      simpa using Nat.min_le_right c l
  | cons t ts ih =>
    intro c m hm hts
    have ht := hts t (by simp)
    obtain ⟨ha, hdenied, hmap⟩ :=
      checkRateLimit_counted l w t0 t key c m hl hm ht.1 ht.2
    obtain ⟨hlen, hidx, hpre⟩ :=
      ih (c + 1) ((checkRateLimit l w t m key).2) hmap
        (fun x hx => hts x (by simp [hx]))
    refine ⟨?_, ?_, ?_⟩
    · simp only [runRequests, List.length_cons]
      omega
    · intro j hj
      cases j with
      | zero =>
        simp only [runRequests, List.getD_cons_zero]
        refine ⟨by simpa using ha, ?_⟩
        intro hle
        exact hdenied (by omega)
      | succ j' =>
        have hj' : j' < ts.length := by
          simp only [List.length_cons] at hj
          omega
        obtain ⟨ha', hd'⟩ := hidx j' hj'
        simp only [runRequests, List.getD_cons_succ]
        have harith : c + 1 + j' = c + (j' + 1) := by omega
        rw [harith] at ha' hd'
        exact ⟨ha', hd'⟩
    · intro ps hps rec hrec
      cases ps with
      | nil =>
        simp only [runRequests] at hrec
        rw [hm] at hrec
        cases hrec
        simpa using Nat.min_le_right c l
      | cons p ps' =>
        obtain ⟨hp, hps'⟩ := List.cons_prefix_cons.mp hps
        subst hp
        refine hpre ps' hps' rec ?_
        simpa only [runRequests] using hrec

/-- C1: for any key first seen at time `t0` with no live record, over requests
all within the same 60-second fixed window, `checkRateLimit` (and the identical
`checkTokenRateLimit`, ceilings 10 and 20) allows exactly the first `l`
requests; every further request in the window is denied with `remaining = 0`
and a `resetIn` wait strictly positive and at most the window length, and the
stored count for the key never exceeds `l` at any point of the sequence. -/
theorem rateLimiter_fixed_window_exact (l w : Nat)
    (hlim : l = REQUEST_LIMIT ∨ l = TOKEN_REQUEST_LIMIT) (hwin : w = TIME_WINDOW)
    (key : String) (m : RLMap) (hm : rlGet m key = none)
    (t0 : Nat) (rest : List Nat)
    (hts : ∀ t ∈ rest, t0 ≤ t ∧ t < t0 + w) :
    ((runRequests l w (t0 :: rest) m key).1.length = rest.length + 1) ∧
    (∀ j, j < rest.length + 1 →
      ((runRequests l w (t0 :: rest) m key).1.getD j ⟨false, 0, 0⟩).allowed
        = decide (j < l) ∧
      (l ≤ j →
        ((runRequests l w (t0 :: rest) m key).1.getD j ⟨false, 0, 0⟩).remaining = 0 ∧
        0 < ((runRequests l w (t0 :: rest) m key).1.getD j ⟨false, 0, 0⟩).resetIn ∧
        ((runRequests l w (t0 :: rest) m key).1.getD j ⟨false, 0, 0⟩).resetIn ≤ (w : Int))) ∧
    (∀ ps, ps <+: (t0 :: rest) → ∀ rec,
      rlGet ((runRequests l w ps m key).2) key = some rec → rec.count ≤ l) := by
  have hl : 0 < l := by
    rcases hlim with h | h <;> subst h <;> decide
  have hfresh := checkRateLimit_fresh l w t0 m key hm
  have hmap : rlGet (checkRateLimit l w t0 m key).2 key = some ⟨min 1 l, t0 + w⟩ := by
    rw [hfresh]
    have hmin : min 1 l = 1 := by omega
    rw [hmin]
    exact rlGet_rlSet_self m key ⟨1, t0 + w⟩
  obtain ⟨hlen, hidx, hpre⟩ :=
    runRequests_window l w t0 key hl rest 1 ((checkRateLimit l w t0 m key).2) hmap hts
  refine ⟨?_, ?_, ?_⟩
  · simp only [runRequests, List.length_cons]
    omega
  · intro j hj
    cases j with
    | zero =>
      simp only [runRequests, List.getD_cons_zero]
      rw [hfresh]
      refine ⟨by simp [hl], ?_⟩
      intro hle
      exact absurd hle (by omega)
    | succ j' =>
      have hj' : j' < rest.length := by omega
      obtain ⟨ha', hd'⟩ := hidx j' hj'
      simp only [runRequests, List.getD_cons_succ]
      have harith : 1 + j' = j' + 1 := by omega
      rw [harith] at ha' hd'
      exact ⟨ha', hd'⟩
  · intro ps hps rec hrec
    cases ps with
    | nil =>
      simp only [runRequests] at hrec
      rw [hm] at hrec
      exact Option.noConfusion hrec
    | cons p ps' =>
      obtain ⟨hp, hps'⟩ := List.cons_prefix_cons.mp hps
      subst hp
      refine hpre ps' hps' rec ?_
      simpa only [runRequests] using hrec

theorem rateLimiter_fixed_window_exact_witness :
    rlGet ([] : RLMap) "k" = none ∧
    (∀ t ∈ List.replicate 10 (0 : Nat), (0 : Nat) ≤ t ∧ t < 0 + 60000) ∧
    ((runRequests 10 60000 ((0 : Nat) :: List.replicate 10 0) [] "k").1.getD 10
        ⟨false, 0, 0⟩).allowed = false ∧
    ((runRequests 10 60000 ((0 : Nat) :: List.replicate 10 0) [] "k").1.getD 10
        ⟨false, 0, 0⟩).remaining = 0 ∧
    ((runRequests 10 60000 ((0 : Nat) :: List.replicate 10 0) [] "k").1.getD 9
        ⟨false, 0, 0⟩).allowed = true := by
  have h := rateLimiter_fixed_window_exact 10 60000 (Or.inl rfl) (by decide) "k" []
    rfl 0 (List.replicate 10 0) (by decide)
  exact ⟨rfl, by decide, (h.2.1 10 (by decide)).1,
    ((h.2.1 10 (by decide)).2 (by decide)).1, (h.2.1 9 (by decide)).1⟩

-- ==================== Sweep lemmas ====================

theorem rlGet_filter_none (p : String × RateLimitRecord → Bool) (key : String) :
    ∀ m : RLMap, rlGet m key = none → rlGet (m.filter p) key = none := by
  intro m
  induction m with
  | nil => intro _; simp [rlGet]
  | cons q rest ih =>
    intro h
    obtain ⟨k0, r0⟩ := q
    by_cases hk : k0 = key
    · simp [rlGet, hk] at h
    · rw [rlGet, if_neg hk] at h
      by_cases hp : p (k0, r0)
      · rw [List.filter_cons, if_pos hp, rlGet, if_neg hk]
        exact ih h
      · rw [List.filter_cons, if_neg hp]
        exact ih h

theorem rlGet_none_of_not_mem (key : String) :
    ∀ m : RLMap, (∀ q ∈ m, q.1 ≠ key) → rlGet m key = none := by
  intro m
  induction m with
  | nil => intro _; rfl
  | cons q rest ih =>
    intro h
    obtain ⟨k0, r0⟩ := q
    rw [rlGet, if_neg (h (k0, r0) (by simp))]
    exact ih (fun q hq => h q (by simp [hq]))

theorem rlGet_sweepExpired (now : Nat) (key : String) :
    ∀ m : RLMap, (m.map Prod.fst).Nodup →
    rlGet (sweepExpired now m) key =
      (rlGet m key).bind (fun r => if r.resetTime < now then none else some r) := by
  intro m
  induction m with
  | nil => intro _; rfl
  | cons q rest ih =>
    intro hnd
    obtain ⟨k0, r0⟩ := q
    rw [List.map_cons, List.nodup_cons] at hnd
    obtain ⟨hk0, hndr⟩ := hnd
    by_cases hexp : r0.resetTime < now
    · have hfc : sweepExpired now ((k0, r0) :: rest) = sweepExpired now rest := by
        simp [sweepExpired, List.filter_cons, hexp]
      by_cases hk : k0 = key
      · subst hk
        have hrest : rlGet rest k0 = none := by
          refine rlGet_none_of_not_mem k0 rest (fun q hq hq1 => ?_)
          have hmem : q.1 ∈ List.map Prod.fst rest := List.mem_map_of_mem Prod.fst hq
          rw [hq1] at hmem
          exact hk0 hmem
        have hswrest : rlGet (sweepExpired now rest) k0 = none :=
          rlGet_filter_none _ k0 rest hrest
        rw [hfc, hswrest]
        simp [rlGet, hexp]
      · rw [hfc, ih hndr]
        simp [rlGet, hk]
    · have hfc : sweepExpired now ((k0, r0) :: rest) = (k0, r0) :: sweepExpired now rest := by
        simp [sweepExpired, List.filter_cons, hexp]
      by_cases hk : k0 = key
      · subst hk
        rw [hfc]
        simp [rlGet, hexp]
      · rw [hfc]
        have h1 : rlGet ((k0, r0) :: sweepExpired now rest) key
            = rlGet (sweepExpired now rest) key := by simp [rlGet, hk]
        have h2 : rlGet ((k0, r0) :: rest) key = rlGet rest key := by simp [rlGet, hk]
        rw [h1, h2, ih hndr]

/-- C8: a key whose record is expired (`now` strictly past the reset time) —
or that has already been purged — is allowed again with a fresh counter: the
check discards the stale record and stores a new window with count 1 and full
remaining budget, and it behaves the same whether or not the periodic sweep
ran first. -/
theorem rateLimiter_lazy_expiry (limit window now : Nat) (key : String) (m : RLMap)
    (hexp : ∀ r, rlGet m key = some r → r.resetTime < now)
    (hnd : (m.map Prod.fst).Nodup) :
    (checkRateLimit limit window now m key).1 =
      { allowed := true, remaining := (limit : Int) - 1, resetIn := (window : Int) } ∧
    rlGet (checkRateLimit limit window now m key).2 key =
      some { count := 1, resetTime := now + window } ∧
    (checkRateLimit limit window now (sweepExpired now m) key).1 =
      (checkRateLimit limit window now m key).1 ∧
    rlGet (checkRateLimit limit window now (sweepExpired now m) key).2 key =
      some { count := 1, resetTime := now + window } := by
  have hsw : rlGet (sweepExpired now m) key = none := by
    rw [rlGet_sweepExpired now key m hnd]
    cases h : rlGet m key with
    | none => rfl
    | some r => simp [hexp r h]
  have hswfresh := checkRateLimit_fresh limit window now (sweepExpired now m) key hsw
  cases h : rlGet m key with
  | none =>
    have hfresh := checkRateLimit_fresh limit window now m key h
    rw [hfresh, hswfresh]
    exact ⟨rfl, rlGet_rlSet_self _ _ _, rfl, rlGet_rlSet_self _ _ _⟩
  | some r =>
    have hdel := checkRateLimit_expired limit window now m key r h (hexp r h)
    rw [hdel, hswfresh]
    exact ⟨rfl, rlGet_rlSet_self _ _ _, rfl, rlGet_rlSet_self _ _ _⟩

theorem rateLimiter_lazy_expiry_witness :
    (checkRateLimit 10 60000 101 [("k", ⟨7, 100⟩)] "k").1 =
      { allowed := true, remaining := (10 : Int) - 1, resetIn := (60000 : Int) } ∧
    rlGet (checkRateLimit 10 60000 101 [("k", ⟨7, 100⟩)] "k").2 "k" =
      some { count := 1, resetTime := 101 + 60000 } := by
  have h := rateLimiter_lazy_expiry 10 60000 101 "k" [("k", ⟨7, 100⟩)]
    (by
      intro r hr
      have h2 : some (⟨7, 100⟩ : RateLimitRecord) = some r := hr
      injection h2 with h3
      rw [← h3]
      decide)
    (by decide)
  exact ⟨h.1, h.2.1⟩

-- ==================== Chat route theorems ====================

theorem mapCaughtError_not_quota (msg : String) (h : isQuotaMsg msg = false) :
    mapCaughtError msg =
      if containsSub msg "timeout" then
        .serverError "Request timeout. Please try again." 504
      else if containsSub msg "network" then
        .serverError "Service temporarily unavailable." 503
      else .serverError msg 500 := by
  have hq : containsSub msg "quota" = false := by
    by_contra hc
    rw [Bool.not_eq_false] at hc
    simp [isQuotaMsg, hc] at h
  have hrl : containsSub msg "rate limit" = false := by
    by_contra hc
    rw [Bool.not_eq_false] at hc
    simp [isQuotaMsg, hc] at h
  unfold mapCaughtError
  by_cases h1 : containsSub msg "timeout" = true
  · simp [h1]
  · by_cases h2 : containsSub msg "network" = true
    · simp [h1, h2]
    · simp [h1, h2, hq, hrl]

/-- C2 (amended): a transcription- or generation-stage failure whose message
matches the quota pattern (contains `quota`, `rate limit` or `429`) is
returned as the distinct quota-exceeded 429 class; any other failure from
those stages propagates as a generic `serverError` with exactly the outer
catch's mapping: status 504 with the timeout text when the message contains
`timeout`, otherwise 503 with the unavailable text when it contains
`network`, otherwise 500 carrying the original message. -/
theorem chat_stage_error_classification
    (stages : ChatStages) (now : Nat) (m : RLMap) (key uri : String)
    (hallowed : (checkChatRateLimit now m key).1.allowed = true)
    (huri : uri ≠ "") (hpre : strStartsWith uri "data:audio/" = true) :
    (∀ msg, stages.transcribeUserSpeech uri = .err msg →
      (isQuotaMsg msg = true →
        (chatPOST stages now m key (some uri)).1 =
          .quotaExceeded "AI service quota exceeded. Please try again in a few moments.") ∧
      (isQuotaMsg msg = false →
        (chatPOST stages now m key (some uri)).1 =
          if containsSub msg "timeout" then
            .serverError "Request timeout. Please try again." 504
          else if containsSub msg "network" then
            .serverError "Service temporarily unavailable." 503
          else .serverError msg 500)) ∧
    (∀ t msg, stages.transcribeUserSpeech uri = .ok t → jsTrim t ≠ "" →
      stages.generateAIResponse t = .err msg →
      (isQuotaMsg msg = true →
        (chatPOST stages now m key (some uri)).1 =
          .quotaExceeded "AI service is busy. Please try again shortly.") ∧
      (isQuotaMsg msg = false →
        (chatPOST stages now m key (some uri)).1 =
          if containsSub msg "timeout" then
            .serverError "Request timeout. Please try again." 504
          else if containsSub msg "network" then
            .serverError "Service temporarily unavailable." 503
          else .serverError msg 500)) := by
  constructor
  · intro msg hmsg
    constructor
    · intro hq
      simp [chatPOST, hallowed, huri, hpre, hmsg, hq]
    · intro hq
      have hred : (chatPOST stages now m key (some uri)).1 = mapCaughtError msg := by
        simp [chatPOST, hallowed, huri, hpre, hmsg, hq]
      rw [hred]
      exact mapCaughtError_not_quota msg hq
  · intro t msg htr hblank hgen
    constructor
    · intro hq
      simp [chatPOST, hallowed, huri, hpre, htr, hblank, hgen, hq]
    · intro hq
      have hred : (chatPOST stages now m key (some uri)).1 = mapCaughtError msg := by
        simp [chatPOST, hallowed, huri, hpre, htr, hblank, hgen, hq]
      rw [hred]
      exact mapCaughtError_not_quota msg hq

theorem chat_stage_error_classification_witness :
    (checkChatRateLimit 0 [] "ip").1.allowed = true ∧
    isQuotaMsg "quota hit" = true ∧
    (chatPOST ⟨fun _ => .err "quota hit", fun _ => .ok "x", fun _ => .ok "y"⟩
        0 [] "ip" (some "data:audio/webm;base64,AAAA")).1 =
      .quotaExceeded "AI service quota exceeded. Please try again in a few moments." ∧
    isQuotaMsg "llm fell over" = false ∧
    (chatPOST ⟨fun _ => .ok "hello", fun _ => .err "llm fell over", fun _ => .ok "y"⟩
        0 [] "ip" (some "data:audio/webm;base64,AAAA")).1 =
      .serverError "llm fell over" 500 := by
  have h := chat_stage_error_classification
    ⟨fun _ => .err "quota hit", fun _ => .ok "x", fun _ => .ok "y"⟩
    0 [] "ip" "data:audio/webm;base64,AAAA" rfl (by decide) (by decide)
  have h2 := chat_stage_error_classification
    ⟨fun _ => .ok "hello", fun _ => .err "llm fell over", fun _ => .ok "y"⟩
    0 [] "ip" "data:audio/webm;base64,AAAA" rfl (by decide) (by decide)
  have h500 := (h2.2 "hello" "llm fell over" rfl (by decide) rfl).2 (by decide)
  refine ⟨rfl, by decide, (h.1 "quota hit" rfl).1 (by decide), by decide, ?_⟩
  rw [h500]
  decide

/-- C2 counterexample: a generation-stage failure whose message matches none
of the quota patterns but contains `timeout` is surfaced with status 504,
not 500, refuting the literal status-500 reading. -/
theorem chat_stage_error_504_counterexample :
    (chatPOST ⟨fun _ => .ok "hello", fun _ => .err "connect timeout",
        fun _ => .ok "y"⟩ 0 [] "ip" (some "data:audio/webm;base64,AAAA")).1 =
      .serverError "Request timeout. Please try again." 504 ∧
    (504 : Nat) ≠ 500 := by
  exact ⟨by decide, by decide⟩

/-- C3: a request whose transcription comes back empty or whitespace-only
short-circuits: the route returns 200 with empty transcription, the canned
fallback text and empty audio, and the result does not depend on the
generation or synthesis stages (they are never invoked). -/
theorem chat_empty_transcription_short_circuit
    (stages : ChatStages) (now : Nat) (m : RLMap) (key uri t : String)
    (hallowed : (checkChatRateLimit now m key).1.allowed = true)
    (huri : uri ≠ "") (hpre : strStartsWith uri "data:audio/" = true)
    (htr : stages.transcribeUserSpeech uri = .ok t) (hblank : jsTrim t = "") :
    chatPOST stages now m key (some uri) =
      (.ok "" "Sorry, I couldn\x27t understand that. Please try again." "",
       (checkChatRateLimit now m key).2) ∧
    (∀ stages' : ChatStages,
      stages'.transcribeUserSpeech = stages.transcribeUserSpeech →
      chatPOST stages' now m key (some uri) = chatPOST stages now m key (some uri)) := by
  have main : ∀ s : ChatStages, s.transcribeUserSpeech uri = .ok t →
      chatPOST s now m key (some uri) =
        (.ok "" "Sorry, I couldn\x27t understand that. Please try again." "",
         (checkChatRateLimit now m key).2) := by
    intro s hs
    simp [chatPOST, hallowed, huri, hpre, hs, hblank]
  refine ⟨main stages htr, fun stages' hst => ?_⟩
  rw [main stages' (by rw [hst]; exact htr), main stages htr]

theorem chat_empty_transcription_short_circuit_witness :
    (checkChatRateLimit 0 [] "ip").1.allowed = true ∧
    jsTrim "   " = "" ∧
    chatPOST ⟨fun _ => .ok "   ", fun _ => .err "gen down", fun _ => .err "tts down"⟩
        0 [] "ip" (some "data:audio/webm;base64,AAAA") =
      (.ok "" "Sorry, I couldn\x27t understand that. Please try again." "",
       (checkChatRateLimit 0 [] "ip").2) := by
  have h := chat_empty_transcription_short_circuit
    ⟨fun _ => .ok "   ", fun _ => .err "gen down", fun _ => .err "tts down"⟩
    0 [] "ip" "data:audio/webm;base64,AAAA" "   " rfl (by decide) (by decide) rfl
    (by decide)
  exact ⟨rfl, by decide, h.1⟩

/-- C4: when transcription and generation succeed with non-blank results and
the text-to-speech stage throws, the route still answers 200 with the
non-empty transcription and reply text and an empty `audioDataUri`. -/
theorem chat_tts_failure_degrades
    (stages : ChatStages) (now : Nat) (m : RLMap) (key uri t r msg : String)
    (hallowed : (checkChatRateLimit now m key).1.allowed = true)
    (huri : uri ≠ "") (hpre : strStartsWith uri "data:audio/" = true)
    (h1 : stages.transcribeUserSpeech uri = .ok t) (ht : jsTrim t ≠ "")
    (h2 : stages.generateAIResponse t = .ok r) (hr : jsTrim r ≠ "")
    (h3 : stages.convertTextToSpeech r = .err msg) :
    (chatPOST stages now m key (some uri)).1 = .ok t r "" ∧ t ≠ "" ∧ r ≠ "" := by
  have htne : t ≠ "" := fun h => ht (by rw [h]; rfl)
  have hrne : r ≠ "" := fun h => hr (by rw [h]; rfl)
  refine ⟨?_, htne, hrne⟩
  simp [chatPOST, hallowed, huri, hpre, h1, ht, h2, hr, h3]

theorem chat_tts_failure_degrades_witness :
    (checkChatRateLimit 0 [] "ip").1.allowed = true ∧
    jsTrim "hi there" ≠ "" ∧ jsTrim "hello!" ≠ "" ∧
    (chatPOST ⟨fun _ => .ok "hi there", fun _ => .ok "hello!",
        fun _ => .err "tts exploded"⟩ 0 [] "ip"
        (some "data:audio/webm;base64,AAAA")).1 = .ok "hi there" "hello!" "" ∧
    ("hi there" : String) ≠ "" ∧ ("hello!" : String) ≠ "" := by
  have h := chat_tts_failure_degrades
    ⟨fun _ => .ok "hi there", fun _ => .ok "hello!", fun _ => .err "tts exploded"⟩
    0 [] "ip" "data:audio/webm;base64,AAAA" "hi there" "hello!" "tts exploded"
    rfl (by decide) (by decide) rfl (by decide) rfl (by decide) rfl
  exact ⟨rfl, by decide, by decide, h.1, h.2.1, h.2.2⟩

-- ==================== Client retry (C5) ====================

/-- C5 (code bug): the server's generation-stage quota response carries the
error text `AI service is busy. Please try again shortly.`, which contains
neither `Quota exceeded` (capital Q) nor `rate limit` (lower case), so the
client classifies it as a generic error: it appends a generic error message
and never schedules the 3 s / 6 s retries nor the final too-many-requests
message, at any retry count. -/
theorem quota_response_never_retried :
    (chatPOST ⟨fun _ => .ok "hello", fun _ => .err "quota exceeded for gemini-2.5-flash",
        fun _ => .ok "audio"⟩ 0 [] "1.2.3.4" (some "data:audio/webm;base64,AAAA")).1
      = .quotaExceeded "AI service is busy. Please try again shortly." ∧
    clientClassifyRateLimit "AI service is busy. Please try again shortly." = false ∧
    (∀ n, clientHandleChatError "AI service is busy. Please try again shortly." n
      = .genericErrorDisplay "AI service is busy. Please try again shortly.") := by
  have hcls : clientClassifyRateLimit "AI service is busy. Please try again shortly."
      = false := by decide
  refine ⟨by decide, hcls, fun n => ?_⟩
  simp [clientHandleChatError, hcls]

-- ==================== Validation side effects (C6) ====================

theorem tokenPOST_map_eq (env : LiveKitEnv) (now : Nat) (m : RLMap) (key : String)
    (room part : Option String) :
    (tokenPOST env now m key room part).2 = (checkTokenRateLimit now m key).2 := by
  simp only [tokenPOST]
  repeat' split
  all_goals rfl

theorem chatPOST_map_eq (stages : ChatStages) (now : Nat) (m : RLMap) (key : String)
    (body : Option String) :
    (chatPOST stages now m key body).2 = (checkChatRateLimit now m key).2 := by
  simp only [chatPOST]
  repeat' split
  all_goals rfl

/-- C6 (amended): a request rejected with a 400 validation error performs no
state change beyond the rate-limit accounting that precedes validation: the
counter map after the rejection is exactly the map produced by the
rate-limit check (which does increment or create the per-key record). -/
theorem validation_rejection_side_effects :
    (∀ (env : LiveKitEnv) (now : Nat) (m : RLMap) (key : String)
        (room part : Option String),
      (tokenPOST env now m key room part).1.isValidationError = true →
      (tokenPOST env now m key room part).2 = (checkTokenRateLimit now m key).2) ∧
    (∀ (stages : ChatStages) (now : Nat) (m : RLMap) (key : String)
        (body : Option String),
      (chatPOST stages now m key body).1.isBadRequest = true →
      (chatPOST stages now m key body).2 = (checkChatRateLimit now m key).2) :=
  ⟨fun env now m key room part _ => tokenPOST_map_eq env now m key room part,
   fun stages now m key body _ => chatPOST_map_eq stages now m key body⟩

theorem validation_rejection_side_effects_witness :
    (tokenPOST ⟨some "k", some "s", some "wss://x"⟩ 1000 [] "1.2.3.4"
        (some "abc 1") (some "bob")).1.isValidationError = true ∧
    (tokenPOST ⟨some "k", some "s", some "wss://x"⟩ 1000 [] "1.2.3.4"
        (some "abc 1") (some "bob")).2 = (checkTokenRateLimit 1000 [] "1.2.3.4").2 := by
  refine ⟨by decide, ?_⟩
  exact validation_rejection_side_effects.1 ⟨some "k", some "s", some "wss://x"⟩
    1000 [] "1.2.3.4" (some "abc 1") (some "bob") (by decide)

/-- C6 counterexample: a request that fails validation (missing body fields)
still mutates the counter map — the rate-limit check runs first and creates
the per-key record — so the map is not unchanged. -/
theorem validation_rejection_mutates_counters :
    (tokenPOST ⟨some "k", some "s", some "wss://x"⟩ 1000 [] "1.2.3.4" none none).1
      = .missingFields "Missing roomName or participantName" ∧
    (tokenPOST ⟨some "k", some "s", some "wss://x"⟩ 1000 [] "1.2.3.4" none none).2
      = [("1.2.3.4", ⟨1, 61000⟩)] ∧
    ([("1.2.3.4", (⟨1, 61000⟩ : RateLimitRecord))] : RLMap) ≠ [] := by
  exact ⟨by decide, by decide, by decide⟩

-- ==================== Token issuance (C7) ====================

/-- C7: with the limiter allowing the request and the provider configuration
present and well-formed, issuance succeeds exactly when both identifiers
match `^[a-zA-Z0-9_-]+$`; when they do not, the response is one of the two
400 validation rejections. -/
theorem tokenPOST_charset_exact (env : LiveKitEnv) (now : Nat) (m : RLMap)
    (key r p : String)
    (hallowed : (checkTokenRateLimit now m key).1.allowed = true)
    (henv : configOK env = true) :
    (tokenPOST env now m key (some r) (some p)).1.isIssued
        = (isValidName r && isValidName p) ∧
    ((isValidName r && isValidName p) = false →
      (tokenPOST env now m key (some r) (some p)).1.isValidationError = true) := by
  obtain ⟨ak, asec, ws⟩ := env
  rcases ak with _ | a
  · simp [configOK] at henv
  rcases asec with _ | b
  · simp [configOK] at henv
  rcases ws with _ | w
  · simp [configOK] at henv
  rw [show configOK ⟨some a, some b, some w⟩ =
      (! (decide (a = "") || decide (b = "") || decide (w = "")) &&
       (strStartsWith w "ws://" || strStartsWith w "wss://")) from rfl,
    Bool.and_eq_true] at henv
  obtain ⟨hne, hws⟩ := henv
  have ha : a ≠ "" := by
    intro hh
    rw [hh] at hne
    simp at hne
  have hb : b ≠ "" := by
    intro hh
    rw [hh] at hne
    simp at hne
  have hw : w ≠ "" := by
    intro hh
    rw [hh] at hne
    simp at hne
  have hurl : (! strStartsWith w "ws://" && ! strStartsWith w "wss://") = false := by
    rcases Bool.or_eq_true_iff.mp hws with h | h <;> simp [h]
  by_cases hval : (isValidName r && isValidName p) = true
  · have hval2 := hval
    rw [Bool.and_eq_true] at hval2
    obtain ⟨hvr, hvp⟩ := hval2
    have hrne : r ≠ "" := by
      intro hh
      rw [hh] at hvr
      exact absurd hvr (by decide)
    have hpne : p ≠ "" := by
      intro hh
      rw [hh] at hvp
      exact absurd hvp (by decide)
    rw [hval]
    refine ⟨?_, ?_⟩
    · simp [tokenPOST, hallowed, hrne, hpne, hvr, hvp, ha, hb, hw, hurl,
        TokenResponse.isIssued]
    · intro hcontra
      exact absurd hcontra (by decide)
  · have hval' : (isValidName r && isValidName p) = false := by
      cases hvv : (isValidName r && isValidName p)
      · rfl
      · exact absurd hvv hval
    rw [hval']
    by_cases hrz : r = ""
    · subst hrz
      refine ⟨?_, fun _ => ?_⟩
      · simp [tokenPOST, hallowed, TokenResponse.isIssued]
      · simp [tokenPOST, hallowed, TokenResponse.isValidationError]
    · by_cases hpz : p = ""
      · subst hpz
        refine ⟨?_, fun _ => ?_⟩
        · simp [tokenPOST, hallowed, TokenResponse.isIssued]
        · simp [tokenPOST, hallowed, TokenResponse.isValidationError]
      · have hcond : (! isValidName r || ! isValidName p) = true := by
          cases hu : isValidName r
          · simp [hu]
          · cases hv2 : isValidName p
            · simp [hv2]
            · rw [hu, hv2] at hval'
              simp at hval'
        refine ⟨?_, fun _ => ?_⟩
        · simp [tokenPOST, hallowed, hrz, hpz, hcond, TokenResponse.isIssued]
        · simp [tokenPOST, hallowed, hrz, hpz, hcond, TokenResponse.isValidationError]

theorem tokenPOST_charset_exact_witness :
    (checkTokenRateLimit 0 [] "1.2.3.4").1.allowed = true ∧
    configOK ⟨some "key", some "secret", some "wss://example.livekit.cloud"⟩ = true ∧
    (tokenPOST ⟨some "key", some "secret", some "wss://example.livekit.cloud"⟩
        0 [] "1.2.3.4" (some "abc-1") (some "bob_2")).1.isIssued = true ∧
    (tokenPOST ⟨some "key", some "secret", some "wss://example.livekit.cloud"⟩
        0 [] "1.2.3.4" (some "abc 1") (some "bob_2")).1.isValidationError = true := by
  have h1 := tokenPOST_charset_exact
    ⟨some "key", some "secret", some "wss://example.livekit.cloud"⟩
    0 [] "1.2.3.4" "abc-1" "bob_2" rfl (by decide)
  have h2 := tokenPOST_charset_exact
    ⟨some "key", some "secret", some "wss://example.livekit.cloud"⟩
    0 [] "1.2.3.4" "abc 1" "bob_2" rfl (by decide)
  exact ⟨rfl, by decide, h1.1, h2.2 (by decide)⟩

-- ==================== Transcript ordering (C9, C10) ====================

/-- C9: after a fully successful pipeline run (non-empty transcription,
reply text and reply audio), the transcript equals the prior transcript
extended by exactly the user message and then the assistant message, in
that order, and playback starts. -/
theorem transcript_success_order (prior : List Message) (T R A : String)
    (hT : T ≠ "") (hR : R ≠ "") (hA : A ≠ "") :
    handleChatData prior T R A =
      (prior ++ [{ text := T, role := .user }, { text := R, role := .assistant }],
       true) := by
  simp [handleChatData, addMessage, hT, hR, hA]

theorem transcript_success_order_witness :
    ("hi" : String) ≠ "" ∧ ("hello" : String) ≠ "" ∧
    ("data:audio/wav;base64,AA" : String) ≠ "" ∧
    handleChatData [] "hi" "hello" "data:audio/wav;base64,AA" =
      ([{ text := "hi", role := .user }, { text := "hello", role := .assistant }],
       true) := by
  refine ⟨by decide, by decide, by decide, ?_⟩
  have h := transcript_success_order [] "hi" "hello" "data:audio/wav;base64,AA"
    (by decide) (by decide) (by decide)
  simpa using h

/-- C10: a 200 response whose `audioDataUri` is empty — every degraded-TTS
and canned-fallback response — leads the client to append no assistant
message and start no playback: only the user transcription (when non-empty)
is appended, and its assistant text is discarded. -/
theorem degraded_response_appends_no_assistant (prior : List Message) (T R : String) :
    handleChatData prior T R "" =
      (prior ++ (if T = "" then [] else [{ text := T, role := .user }]), false) := by
  by_cases hT : T = "" <;> simp [handleChatData, addMessage, hT]
